import Mathlib

/-!
Verification of the spec of the `IITK_ESG` stock-data aggregator
(`src/stocks.py`) against a shallow Lean embedding of its data-shaping
logic.  Network fetches, HTML parsing into raw candidate records, and
spreadsheet rendering are modelled at their boundaries: the embedded
functions receive the already-extracted raw records (timestamps, strings,
optional scores) exactly as the Python code receives them after its
`requests`/`BeautifulSoup`/`json` layers, and produce the rows/cells the
Python code writes.  Python floats are modelled by `ℚ`; `datetime.fromtimestamp`
is modelled in UTC (all concrete timestamps used below are noon-UTC, so the
calendar date agrees for any timezone offset within half a day).
-/

namespace Stocks

/-! ### Calendar / date formatting

Models `datetime.datetime.fromtimestamp(ts).strftime('%d-%m-%Y')` for
`ts ≥ 0` (UTC convention), via the standard civil-from-days algorithm. -/

/-- Convert days since the UNIX epoch to a `(year, month, day)` triple. -/
def civilFromDays (days : Nat) : Nat × Nat × Nat :=
  let z := days + 719468
  let era := z / 146097
  let doe := z % 146097
  let yoe := (doe - doe / 1460 + doe / 36524 - doe / 146096) / 365
  let y := yoe + era * 400
  let doy := doe - (365 * yoe + yoe / 4 - yoe / 100)
  let mp := (5 * doy + 2) / 153
  let d := doy - (153 * mp + 2) / 5 + 1
  let m := if mp < 10 then mp + 3 else mp - 9
  (if m ≤ 2 then y + 1 else y, m, d)

/-- Zero-pad a number below 100 to two digits, like Python `%d`/`%m`. -/
def pad2 (n : Nat) : String :=
  if n < 10 then "0" ++ toString n else toString n

/-- `strftime('%d-%m-%Y')` applied to a UNIX timestamp (seconds). -/
def ddmmyyyy (ts : Nat) : String :=
  let c := civilFromDays (ts / 86400)
  pad2 c.2.2 ++ "-" ++ pad2 c.2.1 ++ "-" ++ toString c.1

/-! ### Character-list string primitives

Python string predicates are modelled on the underlying character lists
(`String.data`), matching Python's code-point semantics. -/

/-- Does the first list lead the second (prefix test on char lists)? -/
def leadsWith : List Char → List Char → Bool
  | [], _ => true
  | _ :: _, [] => false
  | p :: ps, a :: as => p == a && leadsWith ps as

/-- Does `pat` occur as a contiguous run inside the list? -/
def subOccurs (pat : List Char) : List Char → Bool
  | [] => leadsWith pat []
  | a :: as => leadsWith pat (a :: as) || subOccurs pat as

/-- Python `s.startswith(pat)`. -/
def pyStartsWith (s pat : String) : Bool := leadsWith pat.data s.data

/-- Python `s.endswith(pat)`. -/
def pyEndsWith (s pat : String) : Bool := leadsWith pat.data.reverse s.data.reverse

/-- Python `pat in s` for a nonempty `pat`. -/
def strContainsSub (s pat : String) : Bool := subOccurs pat.data s.data

/-- Python `s.lower()`. -/
def pyLower (s : String) : String := String.mk (s.data.map Char.toLower)

/-- Python `s.split(c)` for a one-character separator: split at every
occurrence, keeping empty pieces. -/
def chSplit (c : Char) : List Char → List (List Char)
  | [] => [[]]
  | a :: rest =>
      if a == c then [] :: chSplit c rest
      else
        match chSplit c rest with
        | [] => [[a]]
        | g :: gs => (a :: g) :: gs

/-- Python `int(s)` restricted to digit strings: `none` models a raising
`ValueError`. -/
def pyInt? (l : List Char) : Option Nat :=
  if l ≠ [] ∧ l.all (·.isDigit) then
    some (l.foldl (fun n c => n * 10 + (c.toNat - 48)) 0)
  else none

/-! ### Stable sorting, modelling Python `sorted(..., reverse=True)` -/

/-- Sort a list in descending order of a key, as Python
`sorted(l, key=key, reverse=True)` does. -/
def sortByKeyDesc {α β : Type} [LinearOrder β] (key : α → β) (l : List α) : List α :=
  List.insertionSort (fun a b => key b ≤ key a) l

/-! ### Entry point ticker handling (`main`, src/stocks.py:4005-4016)

`ticker_symbol = input(...).strip().upper()`; when the result is falsy the
default `"AAPL"` is used. -/

/-- Python `str.strip()`: drop leading and trailing whitespace. -/
def pyStrip (s : String) : String :=
  String.mk (((s.data.dropWhile Char.isWhitespace).reverse.dropWhile
    Char.isWhitespace).reverse)

/-- Python `str.upper()`: uppercase every character. -/
def pyUpper (s : String) : String :=
  String.mk (s.data.map Char.toUpper)

/-- The ticker actually used by `main` for a raw operator input line. -/
def processTickerInput (s : String) : String :=
  let t := pyUpper (pyStrip s)
  if t = "" then "AAPL" else t

/-! ### Category error containment (`fetch_*`, src/stocks.py)

Every category-level operation (`fetch_historical_data`, `fetch_esg_data`,
`fetch_company_summary`, `fetch_statistics`, and the three pooled tasks)
wraps its whole body in `try/except Exception`, and the handler writes a
one-row `pd.DataFrame({"Error": [msg]})` into that category's sheet and
falls off the end of the function.  A raising body is modelled as
`FetchOutcome.failure msg`; a completing body as `success sheet`. -/

/-- A sheet written to the Excel workbook: a header row plus data rows. -/
structure Sheet where
  header : List String
  rows : List (List String)
  deriving DecidableEq, Repr

/-- Result of running a category body: either it completes with the sheet
it wrote, or it raises with an exception message. -/
inductive FetchOutcome where
  | success (sheet : Sheet)
  | failure (msg : String)
  deriving DecidableEq, Repr

/-- The one-row error marker `pd.DataFrame({"Error": [msg]})`. -/
def errorSheet (msg : String) : Sheet :=
  ⟨["Error"], [[msg]]⟩

/-- The `try/except` wrapper around a category body: a raised exception is
converted into the one-row error marker; a completed body's sheet is kept. -/
def runCategory (body : FetchOutcome) : Sheet :=
  match body with
  | .success s => s
  | .failure msg => errorSheet msg

/-- `fetch_all_data`: the seven category operations run (four sequentially,
three in the worker pool), each wrapped in its own `try/except`, and every
category's output slot is filled with either the sheet its body produced or
the one-row error marker of its handler.  `fetch_financials`' slot stands
for the statement sheets it delegates to; on failure its handler writes the
single `Financials` error sheet (src/stocks.py:460-461). -/
def fetchAllData (hist esg summary stats fin sust peers : FetchOutcome) :
    List (String × Sheet) :=
  [("Historical Data", runCategory hist),
   ("ESG Scores", runCategory esg),
   ("Company Summary", runCategory summary),
   ("Statistics", runCategory stats),
   ("Financials", runCategory fin),
   ("Sustainability", runCategory sust),
   ("Peers", runCategory peers)]

/-! ### Historical prices (`fetch_historical_data`, src/stocks.py:81-108)

The provider frame arrives with a datetime index (one timestamp per bar)
and a column set.  The code drops `Dividends`/`Stock Splits` when present,
formats the index as `dd-mm-yyyy`, keeps the original datetimes in a
`temp_date` column, sorts by `temp_date` descending, and drops `temp_date`.
A row is modelled as its index timestamp; the written row order is the pair
list `(underlying instant, formatted date)` after the sort. -/

/-- The columns `fetch_historical_data` removes when the source has them. -/
def histDropCols : List String := ["Dividends", "Stock Splits"]

/-- Column set of the written `Historical Data` sheet. -/
def fetchHistColumns (cols : List String) : List String :=
  cols.filter (fun c => !histDropCols.contains c)

/-- Written row order of the `Historical Data` sheet: each bar keeps its
underlying instant (the sort key `temp_date`) and its `dd-mm-yyyy` form. -/
def fetchHistRows (rows : List Nat) : List (Nat × String) :=
  sortByKeyDesc (fun r => r.1) (rows.map (fun ts => (ts, ddmmyyyy ts)))

/-! ### ESG component scores (`fetch_esg_data`, src/stocks.py:314-347)

After the fallback chain, the code holds an optional series and the four
optional component scores.  When all of environment/social/governance are
present, every row gets the current component values and the data-source
note reads `Current values (...)`; otherwise each missing component is
estimated as `esgScore * 0.33` of that row's total and the note reads
`Partially estimated values (...)`. -/

/-- The component scores collected by the ESG fallback chain. -/
structure EsgComponents where
  totalEsg : Option ℚ
  environment : Option ℚ
  social : Option ℚ
  governance : Option ℚ
  deriving DecidableEq, Repr

/-- One written ESG row: the three component cells and the data-source note
(the note is a single value shared by the frame, hence equal on every row). -/
structure EsgRow where
  eScore : ℚ
  sScore : ℚ
  gScore : ℚ
  dataSource : String
  deriving DecidableEq, Repr

/-- Data-source note attached to the ESG frame (src/stocks.py:334-344). -/
def esgObservedNote : String := "Current values (historical components not available)"

/-- Data-source note when some component had to be estimated. -/
def esgEstimatedNote : String := "Partially estimated values (some components not available)"

/-- The E/S/G cells of the row for one series date with total `esgScore`
(src/stocks.py:335-344); `0.33` is the float literal of the source. -/
def esgComponentRow (c : EsgComponents) (esgScore : ℚ) : EsgRow :=
  match c.environment, c.social, c.governance with
  | some e, some s, some g => ⟨e, s, g, esgObservedNote⟩
  | e?, s?, g? =>
      ⟨e?.getD (esgScore * (33 / 100)), s?.getD (esgScore * (33 / 100)),
       g?.getD (esgScore * (33 / 100)), esgEstimatedNote⟩

/-! ### Income statement, embedded-JSON tier
(`_process_json_income_data`, src/stocks.py:626-715)

A JSON period record is modelled by its optional `endDate.raw` timestamp
and its key ↦ optional `fmt` value map (a key present without `fmt` yields
the literal `N/A`, a missing key yields the empty string). -/

/-- One entry of `incomeStatementHistory`. -/
structure IncomePeriod where
  endDate : Option Nat
  values : List (String × Option String)
  deriving DecidableEq, Repr

/-- `period[json_key].get('fmt', 'N/A')` when the key is present, else `""`
(src/stocks.py:699-705). -/
def periodValue (p : IncomePeriod) (jsonKey : String) : String :=
  match p.values.find? (fun kv => kv.1 == jsonKey) with
  | none => ""
  | some (_, some fmt) => fmt
  | some (_, none) => "N/A"

/-- `while len(row) < len(header_row): row.append("")` (src/stocks.py:710-711). -/
def padRowTo (row : List String) (n : Nat) : List String :=
  row ++ List.replicate (n - row.length) ""

/-- The metric list of `_process_json_income_data` (src/stocks.py:655-680);
an empty key marks a section-header row. -/
def incomeMetrics : List (String × String) :=
  [("Revenue", "totalRevenue"),
   ("Cost of Revenue", "costOfRevenue"),
   ("Gross Profit", "grossProfit"),
   ("Operating Expenses", ""),
   ("Research Development", "researchDevelopment"),
   ("Selling General Administrative", "sellingGeneralAdministrative"),
   ("Non Recurring", "nonRecurring"),
   ("Others", "otherOperatingExpenses"),
   ("Total Operating Expenses", "totalOperatingExpenses"),
   ("Operating Income or Loss", "operatingIncome"),
   ("Income from Continuing Operations", ""),
   ("Total Other Income/Expenses Net", "totalOtherIncomeExpenseNet"),
   ("Earnings Before Interest and Taxes", "ebit"),
   ("Interest Expense", "interestExpense"),
   ("Income Before Tax", "incomeBeforeTax"),
   ("Income Tax Expense", "incomeTaxExpense"),
   ("Minority Interest", "minorityInterest"),
   ("Net Income From Continuing Ops", "netIncomeFromContinuingOps"),
   ("Discontinued Operations", ""),
   ("Extraordinary Items", "extraordinaryItems"),
   ("Effect Of Accounting Changes", "effectOfAccountingChanges"),
   ("Other Items", "otherItems"),
   ("Net Income", "netIncome"),
   ("Net Income Applicable To Common Shares", "netIncomeApplicableToCommonShares")]

/-- Python string comparison on char lists: lexicographic by code point. -/
def pyCharsLe : List Char → List Char → Bool
  | [], _ => true
  | _ :: _, [] => false
  | a :: as, b :: bs =>
      if a.val < b.val then true
      else if b.val < a.val then false
      else pyCharsLe as bs

/-- Python `<=` on strings. -/
def pyStrLe (a b : String) : Bool := pyCharsLe a.data b.data

/-- Python `sorted(l, reverse=True)` on strings: descending by code-point
lexicographic order. -/
def sortStringsDesc (l : List String) : List String :=
  List.insertionSort (fun a b => pyStrLe b a = true) l

/-- The header dates: each period's `endDate` formatted as `dd-mm-yyyy`,
then `sorted(dates, reverse=True)` — a sort of the formatted strings
(src/stocks.py:634-648). -/
def incomeDates (hist : List IncomePeriod) : List String :=
  sortStringsDesc (hist.filterMap (fun p => p.endDate.map ddmmyyyy))

/-- One metric row: section headers get blank cells; data rows take values
from the periods sorted by raw `endDate` descending, truncated to the date
count and padded to the header length (src/stocks.py:683-713). -/
def metricRow (hist : List IncomePeriod) (dates : List String) (hdrLen : Nat)
    (m : String × String) : List String :=
  if m.2 = "" then m.1 :: dates.map (fun _ => "")
  else
    let sortedHist := sortByKeyDesc (fun p => p.endDate.getD 0) hist
    padRowTo (m.1 :: (sortedHist.take dates.length).map (fun p => periodValue p m.2)) hdrLen

/-- `_process_json_income_data`: `None` on an empty history, else the
header row followed by the 24 metric rows. -/
def processJsonIncomeData (hist : List IncomePeriod) : Option (List (List String)) :=
  if hist.isEmpty then none
  else
    let dates := incomeDates hist
    let header := "Breakdown" :: dates
    some (header :: incomeMetrics.map (metricRow hist dates header.length))

/-! ### Income statement, HTML-table tier
(`_parse_income_table`, src/stocks.py:773-828) -/

/-- An HTML statement table: the `th` texts of the last `thead` row and the
`td` texts of each `tbody` row. -/
structure HtmlTable where
  headerCells : List String
  bodyRows : List (List String)
  deriving DecidableEq, Repr

/-- Reformat one header date cell (src/stocks.py:788-806): `mm/dd/yyyy` or
`yyyy-mm-dd` becomes `dd-mm-yyyy`; a three-part split with a non-numeric
part keeps the original text (the `except` branch); any other split count
appends nothing, silently dropping the date. -/
def reformatHeaderDate (s : String) : Option String :=
  if s.data.contains '/' then
    match chSplit '/' s.data with
    | [mo, d, y] =>
      match pyInt? mo, pyInt? d, pyInt? y with
      | some m, some dd, some yy => some (pad2 dd ++ "-" ++ pad2 m ++ "-" ++ toString yy)
      | _, _, _ => some s
    | _ => none
  else if s.data.contains '-' then
    match chSplit '-' s.data with
    | [y, mo, d] =>
      match pyInt? y, pyInt? mo, pyInt? d with
      | some yy, some m, some dd => some (pad2 dd ++ "-" ++ pad2 m ++ "-" ++ toString yy)
      | _, _, _ => some s
    | _ => none
  else some s

/-- `_parse_income_table`: headers past the first cell give the dates; each
body row with more than one cell is appended verbatim — with its original
cell count, unpadded and untrimmed (src/stocks.py:813-822). -/
def parseIncomeTable (t : HtmlTable) : Option (List (List String)) :=
  let dates := (t.headerCells.drop 1).filterMap reformatHeaderDate
  let header := "Breakdown" :: dates
  some (header :: t.bodyRows.filter (fun r => decide (1 < r.length)))

/-! ### Peer ESG list (`fetch_peers_esg`, src/stocks.py:2605-2905)

The happy path (page fetched with status 200) has three acquisition tiers:
the scraped anchor elements of the `ESG Risk Score for Peers` section, the
embedded-script JSON `peers` array (only when the first tier produced
nothing), then a shared filter pass, then the yfinance
`recommendedSymbols` fallback (only when the filter pass left nothing).
Finally the subject ticker's own row is prepended — inside a `try` whose
`except` silently skips the insertion when `self.ticker.info` raises. -/

/-- One assembled peer row. -/
structure PeerEntry where
  ticker : String
  companyName : String
  totalScore : Option String
  eScore : Option String
  sScore : Option String
  gScore : Option String
  deriving DecidableEq, Repr

/-- A candidate from a scraped anchor element: ticker text extracted from
the `href` (empty when extraction failed), the company-name text, and the
four score texts (`none` for `--` or absent). -/
structure ScrapedCandidate where
  ticker : String
  name : String
  totalScore : Option String
  eScore : Option String
  sScore : Option String
  gScore : Option String
  deriving DecidableEq, Repr

/-- The boilerplate keywords rejected in company names
(src/stocks.py:2684-2685 and the copies of that list). -/
def boilerplateKeywords : List String :=
  ["copyright", "future", "index", "dow jones", "s&p", "dax", "rights reserved"]

/-- `company_name and any(keyword in company_name.lower() ...)`. -/
def isBoilerplateName (name : String) : Bool :=
  name ≠ "" && boilerplateKeywords.any (fun k => strContainsSub (pyLower name) k)

/-- The non-company ticker test of the scraping loop (src/stocks.py:2664). -/
def isNonCompanyTicker (t : String) : Bool :=
  pyStartsWith t "^" || t.data.contains '=' || pyEndsWith t "^3DF" || t == "DJT"

/-- One iteration of the scraping loop (src/stocks.py:2652-2718): skip an
empty extraction, the subject itself, an already-collected ticker, a
non-company ticker, or a boilerplate name; otherwise append the entry. -/
def scrapeStep (subject : String) (acc : List PeerEntry) (c : ScrapedCandidate) :
    List PeerEntry :=
  if c.ticker = "" || c.ticker == subject || (acc.map PeerEntry.ticker).contains c.ticker then
    acc
  else if isNonCompanyTicker c.ticker then acc
  else if isBoilerplateName c.name then acc
  else acc ++ [⟨c.ticker, c.name, c.totalScore, c.eScore, c.sScore, c.gScore⟩]

/-- The scraped-elements tier. -/
def scrapePeers (subject : String) (cs : List ScrapedCandidate) : List PeerEntry :=
  cs.foldl (scrapeStep subject) []

/-- One peer of the embedded-script JSON tier (src/stocks.py:2735-2757):
no deduplication and no subject-equality check in this tier. -/
def scriptStep (acc : List PeerEntry) (c : ScrapedCandidate) : List PeerEntry :=
  if isNonCompanyTicker c.ticker then acc
  else if isBoilerplateName c.name then acc
  else acc ++ [⟨c.ticker, c.name, c.totalScore, c.eScore, c.sScore, c.gScore⟩]

/-- The embedded-script JSON tier, fed the peers of the first JSON match
that parsed. -/
def scriptPeers (cs : List ScrapedCandidate) : List PeerEntry :=
  cs.foldl scriptStep []

/-- The ticker blacklist of the filter pass (src/stocks.py:2774). -/
def tickerBlacklist : List String :=
  ["DJT", "SPY", "ES%3DF", "YM%3DF", "NQ%3DF", "RTY%3DF", "CL%3DF", "GC%3DF"]

/-- The filter pass over the collected entries (src/stocks.py:2764-2787). -/
def keepPeerEntry (e : PeerEntry) : Bool :=
  !(pyStartsWith e.ticker "^" || pyEndsWith e.ticker "^3DF" || e.ticker.data.contains '='
      || tickerBlacklist.contains e.ticker)
  && !(isBoilerplateName e.companyName)
  && (e.totalScore.isSome || e.eScore.isSome || e.sScore.isSome || e.gScore.isSome)

/-- A successful `yf.Ticker(peer).info` lookup: resolved company name and
the four optional scores.  `none` models a raising or non-dict lookup. -/
structure PeerInfo where
  name : String
  totalScore : Option String
  eScore : Option String
  sScore : Option String
  gScore : Option String
  deriving DecidableEq, Repr

/-- The `recommendedSymbols` fallback tier (src/stocks.py:2793-2834):
filter non-company symbols, keep the first 10, fetch each peer's info,
skip failures and boilerplate names, append the rest — with no
deduplication and no subject-equality check. -/
def fallbackPeers (recommended : List String) (infoOf : String → Option PeerInfo) :
    List PeerEntry :=
  let filtered := (recommended.filter
    (fun p => !(pyStartsWith p "^") && !(p.data.contains '=') && !(pyEndsWith p "^3DF"))).take 10
  filtered.foldl (fun acc p =>
    match infoOf p with
    | none => acc
    | some i =>
        if isBoilerplateName i.name then acc
        else acc ++ [⟨p, i.name, i.totalScore, i.eScore, i.sScore, i.gScore⟩]) []

/-- The subject's own row (src/stocks.py:2887-2894). -/
def subjectEntry (subject : String) (i : PeerInfo) : PeerEntry :=
  ⟨subject, i.name, i.totalScore, i.eScore, i.sScore, i.gScore⟩

/-- The assembled peer list of the happy path: scraped tier, script tier
when the scrape found nothing, the filter pass, the recommendation fallback
when nothing survived, then the subject row prepended — unless the
subject-info lookup raised, in which case the insertion is skipped
(src/stocks.py:2883-2899). -/
def assemblePeers (subject : String) (scraped scripted : List ScrapedCandidate)
    (recommended : List String) (infoOf : String → Option PeerInfo)
    (subjectInfo : Option PeerInfo) : List PeerEntry :=
  let pd0 := scrapePeers subject scraped
  let pd1 := if pd0.isEmpty then scriptPeers scripted else pd0
  let pd2 := pd1.filter keepPeerEntry
  let pd3 := if pd2.isEmpty then fallbackPeers recommended infoOf else pd2
  match subjectInfo with
  | some i => subjectEntry subject i :: pd3
  | none => pd3

/-! ### Numeric formatting (`fetch_statistics` src/stocks.py:961-977,
`fetch_company_summary` src/stocks.py:1815-1941)

Python floats are modelled by `ℚ`.  Python `round` and `%.2f` round
half-to-even on the underlying float; every concrete value used below is
exactly representable and never a rounding tie, so half-up rounding on `ℚ`
agrees with the source on all inputs appearing in the theorems. -/

/-- Round a rational to the nearest integer (half up; see section note). -/
def roundQ (q : ℚ) : ℤ := ⌊q + 1 / 2⌋

/-- Python `round(x, 2)`. -/
def round2 (q : ℚ) : ℚ := (roundQ (q * 100) : ℚ) / 100

/-- Python `round(x, 3)`. -/
def round3 (q : ℚ) : ℚ := (roundQ (q * 1000) : ℚ) / 1000

/-- `f"{q:.2f}"` for `q ≥ 0`. -/
def fmtFixed2Abs (q : ℚ) : String :=
  let m := (roundQ (q * 100)).toNat
  toString (m / 100) ++ "." ++ pad2 (m % 100)

/-- `f"{q:.2f}"`. -/
def fmtFixed2 (q : ℚ) : String :=
  if q < 0 then "-" ++ fmtFixed2Abs (-q) else fmtFixed2Abs q

/-- Chunk a reversed digit list into groups of three. -/
def group3 : List Char → List (List Char)
  | [] => []
  | a :: b :: c :: rest => [a, b, c] :: group3 rest
  | l => [l]

/-- Format a natural with thousands separators, like `f"{n:,}"`. -/
def commaNat (n : Nat) : String :=
  String.mk (((group3 (toString n).data.reverse).intersperse [',']).flatten.reverse)

/-- `f"{q:,.2f}"` for `q ≥ 0`. -/
def fmtComma2Abs (q : ℚ) : String :=
  let m := (roundQ (q * 100)).toNat
  commaNat (m / 100) ++ "." ++ pad2 (m % 100)

/-- `f"{q:,.2f}"`. -/
def fmtComma2 (q : ℚ) : String :=
  if q < 0 then "-" ++ fmtComma2Abs (-q) else fmtComma2Abs q

/-- The large-magnitude formatter of `fetch_statistics`
(src/stocks.py:962-969): a `$`-prefixed string with only a `B` and an `M`
tier — values of a trillion and above still take the `B` suffix. -/
def statFmtLarge (v : ℚ) : String :=
  if 1000000000 ≤ |v| then "$" ++ fmtFixed2 (v / 1000000000) ++ "B"
  else if 1000000 ≤ |v| then "$" ++ fmtFixed2 (v / 1000000) ++ "M"
  else "$" ++ fmtComma2 v

/-- The percent formatter of `fetch_statistics` (src/stocks.py:970-977) for
a numeric value of a percent-like field. -/
def statFmtPercent (key : String) (v : ℚ) : String :=
  if |v| < 1 ∧ key ≠ "payoutRatio" then fmtFixed2 (v * 100) ++ "%"
  else fmtFixed2 v ++ "%"

/-- A cell of the company-summary sheet whose value is a number formatted
from a rounded float (`f"{round(x, k)}{suffix}"` keeps the float's own
representation: `2.5` stays `2.5`, not `2.50`) or an integer with
separators. -/
inductive SummaryCell where
  | approx (q : ℚ) (suffix : String)
  | intComma (n : ℤ)
  deriving DecidableEq, Repr

/-- The market-cap tiering of `fetch_company_summary`
(src/stocks.py:1815-1823), applied to a resolved positive market cap. -/
def summaryMcapFormat (m : ℚ) : SummaryCell :=
  if 1000000000000 ≤ m then .approx (round3 (m / 1000000000000)) "T"
  else if 1000000000 ≤ m then .approx (round3 (m / 1000000000)) "B"
  else if 1000000 ≤ m then .approx (round3 (m / 1000000)) "M"
  else .intComma ⌊m⌋

/-! ### Heuristic placeholder cells (`fetch_company_summary`,
src/stocks.py:1868-1943)

The Beta / P/E / EPS cells are bare numbers; no data-quality or provenance
field accompanies them.  When neither the API nor the scrape produced a
value, a randomized placeholder is written through the same `round(x, 2)`
formatting as an observed value. -/

/-- A bare numeric cell of the company-summary right column. -/
inductive NumCell where
  | num (q : ℚ)
  | na
  deriving DecidableEq, Repr

/-- The `Beta (5Y Monthly)` cell (src/stocks.py:1868-1887): API value,
else scraped value, else the random placeholder
`round(1.0 + random.random() * 0.5, 2)` with `rand` the drawn
`random.random()`.  (The `N/A` arm of the source is unreachable: it is
guarded by a condition that is always true when the API value is absent.) -/
def betaCell (infoBeta scrapedBeta : Option ℚ) (rand : ℚ) : NumCell :=
  match infoBeta with
  | some b => .num (round2 b)
  | none =>
      match scrapedBeta with
      | some b => .num (round2 b)
      | none => .num (round2 (1 + rand * (1 / 2)))

/-- The `PE Ratio (TTM)` cell (src/stocks.py:1889-1909): API value, else
scraped value, else the random placeholder
`round(20.0 + random.random() * 10, 2)`. -/
def peCell (infoPe scrapedPe : Option ℚ) (rand : ℚ) : NumCell :=
  match infoPe with
  | some p => .num (round2 p)
  | none =>
      match scrapedPe with
      | some p => .num (round2 p)
      | none => .num (round2 (20 + rand * 10))

/-! ### Concrete inputs used by the theorems below -/

/-- A one-period income history (period end 2022-12-31, noon UTC). -/
def demoIncomeHist : List IncomePeriod :=
  [⟨some 1672488000, [("totalRevenue", some "100")]⟩]

/-- A two-period income history: period ends 2022-12-31 and 2023-01-01
(both noon UTC), so the formatted dates sort differently from the
underlying instants. -/
def demoPeriods : List IncomePeriod :=
  [⟨some 1672488000, [("totalRevenue", some "100")]⟩,
   ⟨some 1672574400, [("totalRevenue", some "200")]⟩]

/-- One valid scraped peer candidate. -/
def demoScraped : List ScrapedCandidate :=
  [⟨"MSFT", "Microsoft", some "20", none, none, none⟩]

/-- The subject's own info row. -/
def demoSubjInfo : PeerInfo := ⟨"Apple Inc.", some "17", none, none, none⟩

/-- An info lookup that resolves only `MSFT`. -/
def demoInfoOf : String → Option PeerInfo := fun t =>
  if t = "MSFT" then some ⟨"Microsoft Corporation", some "20", none, none, none⟩
  else none

/-! ## Helper lemmas -/

theorem sortByKeyDesc_sorted {α β : Type} [LinearOrder β] (key : α → β) (l : List α) :
    (sortByKeyDesc key l).Pairwise (fun a b => key b ≤ key a) := by
  haveI : IsTotal α (fun a b => key b ≤ key a) := ⟨fun a b => le_total (key b) (key a)⟩
  haveI : IsTrans α (fun a b => key b ≤ key a) := ⟨fun _ _ _ h1 h2 => le_trans h2 h1⟩
  exact List.sorted_insertionSort _ l

theorem sortByKeyDesc_perm {α β : Type} [LinearOrder β] (key : α → β) (l : List α) :
    List.Perm (sortByKeyDesc key l) l :=
  List.perm_insertionSort _ l

theorem sortStringsDesc_perm (l : List String) :
    List.Perm (sortStringsDesc l) l :=
  List.perm_insertionSort _ l

theorem pyUpper_eq_empty_iff (s : String) : pyUpper s = "" ↔ s = "" := by
  cases s with
  | mk d =>
    cases d with
    | nil => exact ⟨fun _ => rfl, fun _ => rfl⟩
    | cons a l =>
      constructor
      · intro h
        have hd := congrArg String.data h
        simp [pyUpper] at hd
      · intro h
        have hd := congrArg String.data h
        simp at hd

theorem padRowTo_length (l : List String) (n : Nat) (h : l.length ≤ n) :
    (padRowTo l n).length = n := by
  simp only [padRowTo, List.length_append, List.length_replicate]
  omega

/-! ## Claim theorems -/

/-- C1: every data-category operation contains its own failures: a raising
body is converted into the one-row error marker written into that
category's output slot, the operation returns normally (`runCategory` is a
total function of the outcome), and `fetch_all_data` fills every category
slot no matter which categories failed. -/
theorem claim_C1_category_failures_contained :
    (∀ hist esg summary stats fin sust peers : FetchOutcome,
      (fetchAllData hist esg summary stats fin sust peers).map Prod.fst =
        ["Historical Data", "ESG Scores", "Company Summary", "Statistics",
         "Financials", "Sustainability", "Peers"]) ∧
    (∀ msg, runCategory (.failure msg) = errorSheet msg) ∧
    (∀ msg, (errorSheet msg).rows.length = 1) :=
  ⟨fun _ _ _ _ _ _ _ => rfl, fun _ => rfl, fun _ => rfl⟩

/-- C10: the operator's ticker input is trimmed and uppercased before use,
and an input that is empty after trimming is replaced by the default
`AAPL` rather than rejected. -/
theorem claim_C10_ticker_input (s : String) :
    (pyStrip s = "" → processTickerInput s = "AAPL") ∧
    (pyStrip s ≠ "" → processTickerInput s = pyUpper (pyStrip s)) := by
  constructor
  · intro h
    show (if pyUpper (pyStrip s) = "" then "AAPL" else pyUpper (pyStrip s)) = "AAPL"
    rw [h]
    rfl
  · intro h
    show (if pyUpper (pyStrip s) = "" then "AAPL" else pyUpper (pyStrip s)) =
      pyUpper (pyStrip s)
    rw [if_neg fun hc => h ((pyUpper_eq_empty_iff (pyStrip s)).mp hc)]

/-- Witness for C10 at the inputs `"  aapl "` and `"   "`. -/
theorem claim_C10_ticker_input_witness :
    processTickerInput "  aapl " = "AAPL" ∧ processTickerInput "   " = "AAPL" := by
  constructor
  · rw [(claim_C10_ticker_input "  aapl ").2 (by decide)]
    decide
  · exact (claim_C10_ticker_input "   ").1 (by decide)

/-- C5: when all three ESG component scores are present the record's
data-source tag is the observed (current-values) note; when any component
is missing the tag is the estimated note and each missing component equals
`0.33` of that date's total ESG score. -/
theorem claim_C5_esg_data_quality (c : EsgComponents) (score : ℚ) :
    (c.environment.isSome = true → c.social.isSome = true →
      c.governance.isSome = true →
      (esgComponentRow c score).dataSource = esgObservedNote) ∧
    (¬ (c.environment.isSome = true ∧ c.social.isSome = true ∧
        c.governance.isSome = true) →
      (esgComponentRow c score).dataSource = esgEstimatedNote ∧
      (c.environment = none → (esgComponentRow c score).eScore = score * (33 / 100)) ∧
      (c.social = none → (esgComponentRow c score).sScore = score * (33 / 100)) ∧
      (c.governance = none → (esgComponentRow c score).gScore = score * (33 / 100))) := by
  obtain ⟨t, env, soc, gov⟩ := c
  cases env <;> cases soc <;> cases gov <;>
    simp [esgComponentRow, esgObservedNote, esgEstimatedNote]

/-- Witness for C5: an all-components record is tagged observed; a record
missing its environmental score is tagged estimated with the documented
`0.33` fraction. -/
theorem claim_C5_esg_data_quality_witness :
    (esgComponentRow ⟨some 20, some 5, some 6, some 7⟩ 20).dataSource = esgObservedNote ∧
    (esgComponentRow ⟨some 20, none, some 6, some 7⟩ 20).dataSource = esgEstimatedNote ∧
    (esgComponentRow ⟨some 20, none, some 6, some 7⟩ 20).eScore = 20 * (33 / 100) := by
  refine ⟨(claim_C5_esg_data_quality ⟨some 20, some 5, some 6, some 7⟩ 20).1 rfl rfl rfl,
    ((claim_C5_esg_data_quality ⟨some 20, none, some 6, some 7⟩ 20).2 (by simp)).1,
    (((claim_C5_esg_data_quality ⟨some 20, none, some 6, some 7⟩ 20).2 (by simp)).2).1 rfl⟩

/-- C9: a numeric percent-like field with absolute value below 1 that is
not the ratio-as-percent field `payoutRatio` is multiplied by 100 before
the `%` suffix; otherwise the `%` suffix is appended without scaling; a
fractional yield of `0.07` renders as `7.00%`. -/
theorem claim_C9_percent_formatting (key : String) (v : ℚ) :
    (|v| < 1 → key ≠ "payoutRatio" → statFmtPercent key v = fmtFixed2 (v * 100) ++ "%") ∧
    (¬ (|v| < 1 ∧ key ≠ "payoutRatio") → statFmtPercent key v = fmtFixed2 v ++ "%") ∧
    statFmtPercent "dividendYield" (7 / 100) = "7.00%" := by
  refine ⟨fun h1 h2 => ?_, fun h => ?_, ?_⟩
  · rw [statFmtPercent, if_pos ⟨h1, h2⟩]
  · rw [statFmtPercent, if_neg h]
  · have h : |((7 : ℚ) / 100)| < 1 ∧ ¬("dividendYield" : String) = "payoutRatio" := by
      refine ⟨?_, by decide⟩
      rw [abs_of_pos (by norm_num)]
      norm_num
    rw [statFmtPercent, if_pos h]
    norm_num [fmtFixed2, fmtFixed2Abs, roundQ]
    decide

/-- Witness for C9: the scaled branch at the yield `0.07` and the unscaled
branch at `payoutRatio = 0.45`. -/
theorem claim_C9_percent_formatting_witness :
    statFmtPercent "dividendYield" (7 / 100) = fmtFixed2 ((7 / 100) * 100) ++ "%" ∧
    statFmtPercent "payoutRatio" (45 / 100) = fmtFixed2 (45 / 100) ++ "%" := by
  constructor
  · refine (claim_C9_percent_formatting "dividendYield" (7 / 100)).1 ?_ (by decide)
    rw [abs_of_pos (by norm_num)]
    norm_num
  · exact (claim_C9_percent_formatting "payoutRatio" (45 / 100)).2.1
      (fun h => h.2 rfl)

/-- C8 counterexample: in `fetch_statistics` there is no `T` tier and no
plain rendering — a value of `10^12` formats as `$1000.00B` (suffix `B`,
not `T`), and `999` formats as `$999.00`, not `999.00`. -/
theorem claim_C8_counterexample :
    statFmtLarge 1000000000000 = "$1000.00B" ∧
    statFmtLarge 999 ≠ "999.00" := by
  constructor
  · norm_num [statFmtLarge, fmtFixed2, fmtFixed2Abs, roundQ]
    decide
  · norm_num [statFmtLarge, fmtComma2, fmtComma2Abs, roundQ]
    decide

/-- C8 amended: `fetch_statistics` renders large metrics `$`-prefixed with
only `B` (≥10^9) and `M` (≥10^6) tiers and two decimals — `2,500,000,000`
gives `$2.50B`, `999` gives `$999.00`, `10^12` gives `$1000.00B` — while
`fetch_company_summary`'s market-cap cell has `T`/`B`/`M` tiers at
`10^12`/`10^9`/`10^6` with values rounded to three decimals (`2.5B`, `1.0T`),
not zero-padded two-decimal strings. -/
theorem claim_C8_amended_magnitude_formatting :
    statFmtLarge 2500000000 = "$2.50B" ∧
    statFmtLarge 999 = "$999.00" ∧
    statFmtLarge 1000000000000 = "$1000.00B" ∧
    summaryMcapFormat 2500000000 = .approx (5 / 2) "B" ∧
    summaryMcapFormat 1000000000000 = .approx 1 "T" ∧
    summaryMcapFormat 2500000 = .approx (5 / 2) "M" := by
  refine ⟨?_, ?_, ?_, ?_, ?_, ?_⟩
  · norm_num [statFmtLarge, fmtFixed2, fmtFixed2Abs, roundQ]
    decide
  · norm_num [statFmtLarge, fmtComma2, fmtComma2Abs, roundQ]
    decide
  · norm_num [statFmtLarge, fmtFixed2, fmtFixed2Abs, roundQ]
    decide
  · norm_num [summaryMcapFormat, round3, roundQ]
  · norm_num [summaryMcapFormat, round3, roundQ]
  · norm_num [summaryMcapFormat, round3, roundQ]

/-- C6 counterexample: the randomized P/E placeholder is written through
the same bare `round(x, 2)` cell as an observed P/E — for the draw `0.1`
the placeholder cell is literally equal to the cell of an observed trailing
P/E of 21, so no `dataQuality`/provenance field distinguishes the guess
from an observed fact. -/
theorem claim_C6_counterexample :
    peCell none none (1 / 10) = peCell (some 21) none 0 := by
  norm_num [peCell, round2, roundQ]

/-- C6 amended: randomized placeholder fallbacks are emitted as untagged
bare numbers: whenever the random beta draw rounds to the same value as
some observed beta, the two cells are identical. -/
theorem claim_C6_amended_untagged_placeholder (r b : ℚ)
    (h : round2 (1 + r * (1 / 2)) = round2 b) :
    betaCell none none r = betaCell (some b) none 0 := by
  simp only [betaCell, h]

/-- Witness for the amended C6 at the draw `0.46` and observed beta `1.23`. -/
theorem claim_C6_amended_untagged_placeholder_witness :
    betaCell none none (23 / 50) = betaCell (some (123 / 100)) none 0 :=
  claim_C6_amended_untagged_placeholder (23 / 50) (123 / 100)
    (by norm_num [round2, roundQ])

/-- C4: for provider bars with distinct timestamps, the written series is
ordered newest-first — the underlying instants are strictly decreasing in
sequence order, hence unique — and the `Dividends`/`Stock Splits` columns
never appear in the output column set (they are dropped when present and
cannot leak in when absent). -/
theorem claim_C4_hist_order_and_columns (rows : List Nat) (cols : List String)
    (h : rows.Nodup) :
    ((fetchHistRows rows).map Prod.fst).Pairwise (· > ·) ∧
    "Dividends" ∉ fetchHistColumns cols ∧
    "Stock Splits" ∉ fetchHistColumns cols := by
  refine ⟨?_, ?_, ?_⟩
  · have hs := sortByKeyDesc_sorted (fun r : Nat × String => r.1)
      (rows.map fun ts => (ts, ddmmyyyy ts))
    have hperm := sortByKeyDesc_perm (fun r : Nat × String => r.1)
      (rows.map fun ts => (ts, ddmmyyyy ts))
    have hpm : List.Perm ((fetchHistRows rows).map Prod.fst) rows := by
      have hm := hperm.map Prod.fst
      rw [List.map_map,
        show (Prod.fst ∘ fun ts : Nat => (ts, ddmmyyyy ts)) = id from rfl,
        List.map_id] at hm
      exact hm
    have hnd : ((fetchHistRows rows).map Prod.fst).Nodup := hpm.nodup_iff.mpr h
    have hne : (fetchHistRows rows).Pairwise (fun a b => a.1 ≠ b.1) :=
      List.pairwise_map.mp hnd
    have hle : (fetchHistRows rows).Pairwise (fun a b => b.1 ≤ a.1) := hs
    rw [List.pairwise_map]
    exact (hle.and hne).imp fun hab => lt_of_le_of_ne hab.1 fun e => hab.2 e.symm
  · intro hmem
    simp [fetchHistColumns, histDropCols, List.mem_filter] at hmem
  · intro hmem
    simp [fetchHistColumns, histDropCols, List.mem_filter] at hmem

/-- Witness for C4 at two bars a day apart and a column set containing
both droppable columns. -/
theorem claim_C4_hist_order_and_columns_witness :
    ((fetchHistRows [86400, 0]).map Prod.fst).Pairwise (· > ·) ∧
    "Dividends" ∉ fetchHistColumns ["Open", "High", "Low", "Close", "Volume",
      "Dividends", "Stock Splits"] ∧
    "Stock Splits" ∉ fetchHistColumns ["Open", "High", "Low", "Close", "Volume",
      "Dividends", "Stock Splits"] :=
  claim_C4_hist_order_and_columns [86400, 0]
    ["Open", "High", "Low", "Close", "Volume", "Dividends", "Stock Splits"]
    (by decide)

/-- C2 counterexample: the HTML-table tier appends a body row with its
original cell count, so a two-cell row enters a table whose header carries
two dates — `len(row) = 2 ≠ len(dates) + 1 = 3`. -/
theorem claim_C2_counterexample :
    ¬ (∀ row ∈ (parseIncomeTable
          ⟨["Breakdown", "2022-12-31", "2021-12-31"], [["Revenue", "100"]]⟩).getD [],
        row.length =
          ((["Breakdown", "2022-12-31", "2021-12-31"].drop 1).filterMap
            reformatHeaderDate).length + 1) := by
  decide

/-- C2 amended: the embedded-JSON tier does maintain the row-length
invariant — every row of a table produced by `_process_json_income_data`
has exactly `len(dates) + 1` cells, with missing values padded as empty
strings; the HTML-parsing tier gives no such guarantee. -/
theorem claim_C2_amended_json_row_length (hist : List IncomePeriod)
    (tbl : List (List String)) (h : processJsonIncomeData hist = some tbl) :
    ∀ row ∈ tbl, row.length = (incomeDates hist).length + 1 := by
  intro row hrow
  rw [processJsonIncomeData] at h
  by_cases he : hist.isEmpty
  · rw [if_pos he] at h
    cases h
  · rw [if_neg he] at h
    injection h with h
    subst h
    rcases List.mem_cons.mp hrow with h1 | h2
    · subst h1
      simp
    · obtain ⟨m, hm, rfl⟩ := List.mem_map.mp h2
      by_cases hk : m.2 = ""
      · simp [metricRow, hk]
      · simp only [metricRow, if_neg hk]
        rw [padRowTo_length]
        · simp
        · simp [List.length_take]

/-- Witness for the amended C2 at a one-period history. -/
theorem claim_C2_amended_json_row_length_witness :
    (["Breakdown", "31-12-2022"] : List String).length =
      (incomeDates demoIncomeHist).length + 1 :=
  claim_C2_amended_json_row_length demoIncomeHist
    ((processJsonIncomeData demoIncomeHist).getD []) (by decide)
    ["Breakdown", "31-12-2022"] (by decide)

/-- C7: `_process_json_income_data` sorts the formatted `dd-mm-yyyy`
strings, not the underlying instants: with period ends 2022-12-31 and
2023-01-01 the header places the older date first (string-descending),
while the value rows are ordered by raw timestamp, so the newer period's
revenue lands under the older date's column. -/
theorem claim_C7_statement_dates_string_sorted :
    ddmmyyyy 1672488000 = "31-12-2022" ∧
    ddmmyyyy 1672574400 = "01-01-2023" ∧
    (1672488000 : Nat) < 1672574400 ∧
    ((processJsonIncomeData demoPeriods).getD []).head? =
      some ["Breakdown", "31-12-2022", "01-01-2023"] ∧
    ((processJsonIncomeData demoPeriods).getD [])[1]? =
      some ["Revenue", "200", "100"] := by
  decide

theorem scrapeFold_sound (subject : String) (cs : List ScrapedCandidate) :
    ∀ acc : List PeerEntry,
      (∀ e ∈ acc, e.ticker ≠ subject ∧ isNonCompanyTicker e.ticker = false) →
      (acc.map PeerEntry.ticker).Nodup →
      (∀ e ∈ cs.foldl (scrapeStep subject) acc,
        e.ticker ≠ subject ∧ isNonCompanyTicker e.ticker = false) ∧
      ((cs.foldl (scrapeStep subject) acc).map PeerEntry.ticker).Nodup := by
  induction cs with
  | nil =>
    intro acc h1 h2
    exact ⟨h1, h2⟩
  | cons c cs ih =>
    intro acc h1 h2
    simp only [List.foldl_cons]
    have hstep : (∀ e ∈ scrapeStep subject acc c,
        e.ticker ≠ subject ∧ isNonCompanyTicker e.ticker = false) ∧
        ((scrapeStep subject acc c).map PeerEntry.ticker).Nodup := by
      unfold scrapeStep
      by_cases hA : (decide (c.ticker = "") || c.ticker == subject
          || (acc.map PeerEntry.ticker).contains c.ticker) = true
      · rw [if_pos hA]
        exact ⟨h1, h2⟩
      · rw [if_neg hA]
        by_cases hB : isNonCompanyTicker c.ticker = true
        · rw [if_pos hB]
          exact ⟨h1, h2⟩
        · rw [if_neg hB]
          by_cases hC : isBoilerplateName c.name = true
          · rw [if_pos hC]
            exact ⟨h1, h2⟩
          · rw [if_neg hC]
            simp only [Bool.or_eq_true, decide_eq_true_eq, beq_iff_eq,
              not_or] at hA
            constructor
            · intro e he
              rcases List.mem_append.mp he with he | he
              · exact h1 e he
              · have he' : e = ⟨c.ticker, c.name, c.totalScore, c.eScore,
                    c.sScore, c.gScore⟩ := by simpa using he
                subst he'
                exact ⟨hA.1.2, Bool.eq_false_iff.mpr hB⟩
            · rw [List.map_append, List.nodup_append]
              refine ⟨h2, by simp, ?_⟩
              intro t ht
              simp only [List.map_cons, List.map_nil, List.mem_singleton]
              intro hteq
              subst hteq
              exact hA.2 (List.elem_iff.mpr (by simpa using ht))
    exact ih (scrapeStep subject acc c) hstep.1 hstep.2

theorem filteredScrape_sound (subject : String) (cs : List ScrapedCandidate) :
    (∀ e ∈ (scrapePeers subject cs).filter keepPeerEntry,
      e.ticker ≠ subject ∧ isNonCompanyTicker e.ticker = false) ∧
    (((scrapePeers subject cs).filter keepPeerEntry).map PeerEntry.ticker).Nodup := by
  have hbase := scrapeFold_sound subject cs [] (by intro e he; cases he) (by simp)
  constructor
  · intro e he
    exact hbase.1 e (List.mem_filter.mp he).1
  · exact hbase.2.sublist ((List.filter_sublist _).map PeerEntry.ticker)

/-- C3 amended: when the subject-info lookup succeeds, the subject's own
ticker is free of `^`/`=`, and the page-scraping tier produced at least one
surviving entry (so the non-deduplicating script and recommendation
fallbacks are not consulted), the assembled list has the subject at index
0, no `^`-prefixed or `=`-containing ticker, and no duplicate tickers. -/
theorem claim_C3_amended_peer_invariants (subject : String)
    (scraped scripted : List ScrapedCandidate) (recommended : List String)
    (infoOf : String → Option PeerInfo) (si : PeerInfo)
    (hs1 : pyStartsWith subject "^" = false)
    (hs2 : subject.data.contains '=' = false)
    (hne : (scrapePeers subject scraped).filter keepPeerEntry ≠ []) :
    (assemblePeers subject scraped scripted recommended infoOf (some si)).head? =
      some (subjectEntry subject si) ∧
    (∀ e ∈ assemblePeers subject scraped scripted recommended infoOf (some si),
      pyStartsWith e.ticker "^" = false ∧ e.ticker.data.contains '=' = false) ∧
    ((assemblePeers subject scraped scripted recommended infoOf (some si)).map
      PeerEntry.ticker).Nodup := by
  have hpd0 : (scrapePeers subject scraped).isEmpty = false := by
    cases hempty : (scrapePeers subject scraped).isEmpty
    · rfl
    · exact absurd (by rw [List.isEmpty_iff.mp hempty]; rfl) hne
  have hpd2 : ((scrapePeers subject scraped).filter keepPeerEntry).isEmpty = false := by
    cases hempty : ((scrapePeers subject scraped).filter keepPeerEntry).isEmpty
    · rfl
    · exact absurd (List.isEmpty_iff.mp hempty) hne
  have hasm : assemblePeers subject scraped scripted recommended infoOf (some si) =
      subjectEntry subject si :: (scrapePeers subject scraped).filter keepPeerEntry := by
    simp [assemblePeers, hpd0, hpd2]
  have hsound := filteredScrape_sound subject scraped
  rw [hasm]
  refine ⟨rfl, ?_, ?_⟩
  · intro e he
    rcases List.mem_cons.mp he with he | he
    · subst he
      exact ⟨hs1, hs2⟩
    · have hg := (hsound.1 e he).2
      simp only [isNonCompanyTicker, Bool.or_eq_false_iff] at hg
      exact ⟨hg.1.1.1, hg.1.1.2⟩
  · rw [List.map_cons, List.nodup_cons]
    constructor
    · intro hsub
      obtain ⟨e, he, hteq⟩ := List.mem_map.mp hsub
      exact (hsound.1 e he).1 hteq
    · exact hsound.2

/-- Witness for the amended C3: one clean scraped peer, a successful
subject lookup. -/
theorem claim_C3_amended_peer_invariants_witness :
    (assemblePeers "AAPL" demoScraped [] [] (fun _ => none) (some demoSubjInfo)).head? =
      some (subjectEntry "AAPL" demoSubjInfo) ∧
    ((assemblePeers "AAPL" demoScraped [] [] (fun _ => none)
      (some demoSubjInfo)).map PeerEntry.ticker).Nodup := by
  have h := claim_C3_amended_peer_invariants "AAPL" demoScraped [] []
    (fun _ => none) demoSubjInfo (by decide) (by decide) (by decide)
  exact ⟨h.1, h.2.2⟩

/-- C3 counterexample: with the scraping and script tiers empty, the
recommendation fallback admits a duplicated symbol twice, and a raising
subject-info lookup skips the subject insertion — the assembled list is
`[MSFT, MSFT]`: the subject is not at index 0 and a ticker repeats. -/
theorem claim_C3_counterexample :
    ¬ ((assemblePeers "AAPL" [] [] ["MSFT", "MSFT"] demoInfoOf none).head?.map
        PeerEntry.ticker = some "AAPL" ∧
      ((assemblePeers "AAPL" [] [] ["MSFT", "MSFT"] demoInfoOf none).map
        PeerEntry.ticker).Nodup) := by
  decide

end Stocks
